import Mathlib

/-!
Shallow embedding of the om-cli operation execution engine
(repository ComposeDev/om-cli, directory src/src/om_cli), covering:

* the parameter model (models/om_parameter.py, models/om_parameter_list.py),
* parameter processing (services/parameter_processing.py),
* conditions (models/om_condition.py, models/om_condition_group.py),
* the loop state machine and the operation executor
  (models/loop_state.py, services/operation_processing.py).

Python values stored in `OMParameter.value` may be `str`, `bool`, `int`
or `None`; they are embedded as `Option PyVal`.  External collaborators
(the jsonpath library, the regex library, the action-pack registry and
the API handler) are parameters of the model, mirroring the interfaces
the code calls.  Interactive input (`Screen().input`) is embedded as a
list of strings; an exhausted list corresponds to the end-of-input
signal (CTRL+D), which Python surfaces as `EOFError`.
-/

namespace OmCli

/-- Lower-casing of one ASCII character (the program only compares against
ASCII literals such as "y", "n", "true" and "false"). -/
def pyCharLower (c : Char) : Char :=
  if 65 ≤ c.toNat ∧ c.toNat ≤ 90 then Char.ofNat (c.toNat + 32) else c

/-- Python `str.lower` (ASCII fragment). -/
def pyLower (s : String) : String := ⟨s.data.map pyCharLower⟩

/-- ASCII decimal-digit test for Python `str.isdigit`. -/
def pyIsDigitChar (c : Char) : Bool := 48 ≤ c.toNat && c.toNat ≤ 57

/-- Python `int(...)` on a string of decimal digits. -/
def pyStrToNat (s : String) : Nat :=
  s.data.foldl (fun a c => a * 10 + (c.toNat - 48)) 0

/-- Decimal digits of a natural number (the second argument is fuel, always
called with `n + 1` which suffices). -/
def natDigitsAux : Nat → Nat → List Char
  | _, 0 => []
  | n, fuel + 1 =>
      if n < 10 then [Char.ofNat (n + 48)]
      else natDigitsAux (n / 10) fuel ++ [Char.ofNat (n % 10 + 48)]

/-- Python `str(...)` of an int. -/
def pyIntToString (i : Int) : String :=
  if i < 0 then ⟨'-' :: natDigitsAux i.natAbs (i.natAbs + 1)⟩
  else ⟨natDigitsAux i.natAbs (i.natAbs + 1)⟩

/-- Python `str.split(sep)` on character lists, for a nonempty separator:
left-to-right, non-overlapping.  The first argument is fuel; every call
site passes the length of the list plus one, which always suffices. -/
def pySplitCharsAux (sep : List Char) : Nat → List Char → List (List Char)
  | 0, _ => []
  | _ + 1, [] => [[]]
  | fuel + 1, x :: xs =>
      if sep.isPrefixOf (x :: xs) ∧ sep ≠ [] then
        [] :: pySplitCharsAux sep fuel ((x :: xs).drop sep.length)
      else
        match pySplitCharsAux sep fuel xs with
        | [] => [[x]]
        | hd :: tl => (x :: hd) :: tl

def pySplitChars (sep : List Char) (xs : List Char) : List (List Char) :=
  pySplitCharsAux sep (xs.length + 1) xs

/-- Python `str.split(sep)`. -/
def pySplitOn (s sep : String) : List String :=
  (pySplitChars sep.data s.data).map (fun l => ⟨l⟩)

/-- Joining character lists with a separator list. -/
def joinWithChars (sep : List Char) : List (List Char) → List Char
  | [] => []
  | [x] => x
  | x :: xs => x ++ sep ++ joinWithChars sep xs

/-- Python `str.replace(old, new)` for a nonempty `old`: every
non-overlapping occurrence, scanning left to right. -/
def pyReplace (s old new : String) : String :=
  ⟨joinWithChars new.data (pySplitChars old.data s.data)⟩

/-- Python runtime values that the program stores in `OMParameter.value`:
strings, booleans and integers (from `validate_and_convert_parameter_value`). -/
inductive PyVal where
  | str (s : String)
  | bool (b : Bool)
  | int (n : Int)
deriving DecidableEq, Repr

/-- Python `str(...)` applied to a stored value. -/
def PyVal.toPyString : PyVal → String
  | .str s => s
  | .bool b => if b then "True" else "False"
  | .int n => pyIntToString n

/-- Python truthiness of an optional stored value (`None`, `""`, `False`
and `0` are falsy). -/
def pyTruthyVal : Option PyVal → Bool
  | none => false
  | some (.str s) => s ≠ ""
  | some (.bool b) => b
  | some (.int n) => n ≠ 0

/-- Python truthiness of an optional string (`None` and `""` are falsy). -/
def pyTruthyStr : Option String → Bool
  | none => false
  | some s => s ≠ ""

/-- models/om_parameter.py: `OMParameterType`. -/
inductive OMParameterType where
  | STRING
  | INTEGER
  | BOOLEAN
  | UNDEFINED
deriving DecidableEq, Repr

/-- models/om_parameter.py: `OMParameter`.  The pydantic annotation declares
`value: str | None`, but runtime assignments can store a bool or an int
(pydantic does not validate assignments here), hence `Option PyVal`. -/
structure OMParameter where
  name : String
  type : OMParameterType := .STRING
  value : Option PyVal := none
  default_value : Option String := none
  preset_value : Option String := none
  api_parameter_name : Option String := none
  custom_input_name : Option String := none
  override_parameter_name : Option String := none
  custom_text : Option String := none
  non_stick : Bool := false
  command_parameter : Bool := false
  custom_parameter : Bool := false
  override_output_parameter_name : Bool := false
  action_index : Option Int := none
deriving DecidableEq, Repr

/-- models/om_parameter.py: `OMParameter.get_type_string`. -/
def OMParameter.get_type_string (p : OMParameter) : String :=
  match p.type with
  | .STRING => "String"
  | .BOOLEAN => "Boolean"
  | .INTEGER => "Integer"
  | .UNDEFINED => "Undefined"

/-- models/om_parameter_list.py: the inner loop of `OMParameterList.merge` for
one item of the other list: replace the first entry with the same name,
otherwise append the item at the end. -/
def mergeItem : List OMParameter → OMParameter → List OMParameter
  | [], p => [p]
  | q :: rest, p =>
      if q.name = p.name then p :: rest else q :: mergeItem rest p

/-- models/om_parameter_list.py: `OMParameterList.merge` (`self` is the first
argument, the merged-in list the second). -/
def merge (qs ps : List OMParameter) : List OMParameter :=
  ps.foldl mergeItem qs

/-- The list of parameter names, in order. -/
def names (qs : List OMParameter) : List String :=
  qs.map (fun q => q.name)

/-- Python truthiness of an optional int (`None` and `0` are falsy). -/
def pyTruthyInt : Option Int → Bool
  | none => false
  | some n => n ≠ 0

/-- The body text of a `requests.Response`, together with its Python
truthiness (`bool(response)` is `status_code < 400`). -/
structure PyResponse where
  ok : Bool
  text : String
deriving DecidableEq, Repr

/-- models/result_object.py: `ResultObject`. -/
structure ResultObject where
  success : Bool
  text : Option String := none
  response : Option PyResponse := none
  parameters : List OMParameter := []
  repeat_action : Bool := false
  repeat_loop : Option Bool := none
deriving DecidableEq, Repr

/-- Python exceptions raised inside the engine: `EOFError` from an exhausted
input stream, `ValueError` from `process_looping`, `RecursionError` from
`handle_user_input`, and the `TypeError` that follows assigning a missing
loop-start index (a `None`) to the action-index cursor. -/
inductive PyExc where
  | eofError
  | valueError
  | recursionError
  | noneIndexError
deriving DecidableEq, Repr

/-- models/om_parameter_list.py: `override_internal_action_parameter_name`. -/
def override_internal_action_parameter_name (parameters : List OMParameter)
    (internal_action_parameter_name : String) (current_action_index : Option Int) : String :=
  match current_action_index with
  | none => internal_action_parameter_name
  | some idx =>
      match parameters.find? (fun p =>
          pyTruthyStr p.override_parameter_name &&
          p.override_parameter_name == some internal_action_parameter_name &&
          p.action_index == some idx) with
      | some p => p.name
      | none => internal_action_parameter_name

/-- models/om_parameter_list.py: `get_om_parameter` (the boolean of the Python
pair is `Option.isSome` here). -/
def get_om_parameter (parameters : List OMParameter) (name : String)
    (action_index : Option Int) : Option OMParameter :=
  let om_parameter_name := override_internal_action_parameter_name parameters name action_index
  parameters.find? (fun p => p.name == om_parameter_name)

/-- services/parameter_processing.py: the inner `find_and_update_parameter` of
`check_for_provided_parameters`; `some` exactly when Python returns True,
carrying the mutated `om_parameter`. -/
def find_and_update_parameter (om_parameter : OMParameter)
    (parameters : List OMParameter) (input_name : String)
    (action_index : Option Int) : Option OMParameter :=
  match get_om_parameter parameters input_name action_index with
  | some found =>
      some { om_parameter with
        value := found.value,
        command_parameter :=
          if found.command_parameter then found.command_parameter
          else om_parameter.command_parameter }
  | none => none

/-- services/parameter_processing.py: `check_for_provided_parameters`.
Returns the Python return value paired with the (possibly mutated)
`om_parameter`. -/
def check_for_provided_parameters (om_parameter : OMParameter) (input_name : String)
    (argument_parameters extra_parameters : List OMParameter)
    (action_index : Option Int) (is_repeated skip_looping : Bool) :
    Bool × OMParameter :=
  let first :=
    if ¬argument_parameters.isEmpty ∧
        (skip_looping ∨ om_parameter.non_stick = false ∨ is_repeated = false) then
      find_and_update_parameter om_parameter argument_parameters input_name action_index
    else none
  match first with
  | some p1 => (true, p1)
  | none =>
      let second :=
        if ¬extra_parameters.isEmpty ∧
            (om_parameter.non_stick = false ∨ is_repeated = false) then
          find_and_update_parameter om_parameter extra_parameters input_name action_index
        else none
      match second with
      | some p1 => (true, p1)
      | none => (false, om_parameter)

/-- services/parameter_processing.py, `replace_placeholders`: the token
extraction `[ph.split("\x7d\x7d")[0] for ph in value.split("\x7b\x7b") if "\x7d\x7d" in ph]`. -/
def extractPlaceholders (s : String) : List String :=
  ((pySplitOn s "\x7b\x7b").filter (fun ph => (pySplitOn ph "\x7d\x7d").length ≥ 2)).map
    (fun ph => (pySplitOn ph "\x7d\x7d").headD "")

/-- services/parameter_processing.py, `replace_placeholders`: the scope walk
over `[om_parameters, argument_parameters, extra_parameters]`, first list
containing the name wins, first matching entry within the list wins. -/
def findInScopes (placeholder : String) : List (List OMParameter) → Option OMParameter
  | [] => none
  | scope :: rest =>
      match scope.find? (fun q => q.name == placeholder) with
      | some q => some q
      | none => findInScopes placeholder rest

/-- services/parameter_processing.py, `replace_placeholders`: the per-property
placeholder loop.  As in the source, each substitution is computed from the
ORIGINAL property value (`property_value` is never reassigned inside the
loop) and `setattr` overwrites the previous substitution; a substitution
that leaves the string unchanged is not stored. -/
def replaceProperty (property_value : String) (scopes : List (List OMParameter)) : String :=
  (extractPlaceholders property_value).foldl
    (fun current placeholder =>
      match findInScopes placeholder scopes with
      | some parameter =>
          match parameter.value with
          | some v =>
              let new_value :=
                pyReplace property_value ("\x7b\x7b" ++ placeholder ++ "\x7d\x7d") v.toPyString
              if new_value ≠ property_value then new_value else current
          | none => current
      | none => current)
    property_value

/-- services/parameter_processing.py: `replace_placeholders`.  Processes the
properties value, custom_text, custom_input_name, default_value and
preset_value of a deep copy; a property that is Python-falsy (`None` or
`""`) is skipped, and a non-string value yields no placeholders. -/
def replace_placeholders (om_parameter : OMParameter)
    (om_parameters argument_parameters extra_parameters : List OMParameter) : OMParameter :=
  let scopes := [om_parameters, argument_parameters, extra_parameters]
  let p := om_parameter
  let p := match p.value with
    | some (.str s) =>
        if s = "" then p else { p with value := some (.str (replaceProperty s scopes)) }
    | _ => p
  let p := match p.custom_text with
    | some s => if s = "" then p else { p with custom_text := some (replaceProperty s scopes) }
    | none => p
  let p := match p.custom_input_name with
    | some s => if s = "" then p else { p with custom_input_name := some (replaceProperty s scopes) }
    | none => p
  let p := match p.default_value with
    | some s => if s = "" then p else { p with default_value := some (replaceProperty s scopes) }
    | none => p
  let p := match p.preset_value with
    | some s => if s = "" then p else { p with preset_value := some (replaceProperty s scopes) }
    | none => p
  p

/-- Python `str(...)` of an `OMParameterType` member. -/
def OMParameterType.pyStr : OMParameterType → String
  | .STRING => "OMParameterType.STRING"
  | .INTEGER => "OMParameterType.INTEGER"
  | .BOOLEAN => "OMParameterType.BOOLEAN"
  | .UNDEFINED => "OMParameterType.UNDEFINED"

/-- Python `str.isdigit` (restricted to ASCII digits). -/
def isdigit (s : String) : Bool := s.data ≠ [] && s.data.all pyIsDigitChar

/-- services/parameter_processing.py: `validate_and_convert_parameter_value`.
Returns (success, converted value, error text).  Note the converted value
for BOOLEAN is a Python bool and for INTEGER a Python int. -/
def validate_and_convert_parameter_value (user_input : String)
    (input_type : OMParameterType) : Bool × Option PyVal × String :=
  match input_type with
  | .STRING => (true, some (.str user_input), "")
  | .BOOLEAN =>
      (pyLower user_input == "true" || pyLower user_input == "false",
       some (.bool (pyLower user_input == "true")),
       user_input ++ " is not a valid boolean value.")
  | .INTEGER =>
      if isdigit user_input then (true, some (.int ((pyStrToNat user_input : Nat) : Int)), "")
      else (false, none, user_input ++ " is not a valid integer.")
  | .UNDEFINED => (false, none, OMParameterType.UNDEFINED.pyStr ++ " is currently not supported.")

/-- services/parameter_processing.py, `handle_user_input`: the expression
`Screen().input(...) or default_value or ""`. -/
def effectiveInput (user_input : String) (default_value : Option String) : String :=
  if user_input ≠ "" then user_input
  else
    match default_value with
    | some d => if d ≠ "" then d else ""
    | none => ""

/-- services/parameter_processing.py: `handle_user_input`.  The prompt and
validation loop, `for _ in range(20)`; the input stream is a list, reading
from an exhausted list is the end-of-input signal (`EOFError`), and the
exhausted retry budget raises `RecursionError`.  Returns the validated
value and the remaining input stream. -/
def handle_user_input (input_type : OMParameterType) (default_value : Option String) :
    List String → Nat → Except PyExc (Option PyVal) × List String
  | inputs, 0 => (.error .recursionError, inputs)
  | [], _ + 1 => (.error .eofError, [])
  | i :: rest, n + 1 =>
      let user_input := effectiveInput i default_value
      let v := validate_and_convert_parameter_value user_input input_type
      if v.1 then (.ok v.2.1, rest)
      else handle_user_input input_type default_value rest n

/-- services/parameter_processing.py: the `for om_parameter in om_parameters`
loop of `process_parameters`.  `done` holds the already processed items of
the mutated list; the scope passed to `replace_placeholders` is the whole
list with in-place mutations applied so far.  On an exception the mutated
list so far and the remaining input stream are returned with the error. -/
def process_parameters_loop (argument_parameters extra_parameters : List OMParameter)
    (is_repeated skip_looping : Bool) (action_index : Int) :
    List OMParameter → List OMParameter → List String →
    Except PyExc Unit × List OMParameter × List String
  | done, [], inputs => (.ok (), done, inputs)
  | done, p :: rest, inputs =>
      if p.name = "operation_id" then
        process_parameters_loop argument_parameters extra_parameters is_repeated
          skip_looping action_index (done ++ [p]) rest inputs
      else
        let pai := if pyTruthyInt p.action_index then p.action_index else some action_index
        let p := { p with action_index := pai }
        let copy := replace_placeholders p (done ++ p :: rest) argument_parameters extra_parameters
        let input_name :=
          match copy.custom_input_name with
          | some s => if s ≠ "" then s else p.name
          | none => p.name
        let checked := check_for_provided_parameters p input_name argument_parameters
          extra_parameters (some action_index) is_repeated skip_looping
        if checked.1 then
          process_parameters_loop argument_parameters extra_parameters is_repeated
            skip_looping action_index (done ++ [checked.2]) rest inputs
        else if copy.preset_value.isSome then
          process_parameters_loop argument_parameters extra_parameters is_repeated
            skip_looping action_index
            (done ++ [{ p with value := copy.preset_value.map PyVal.str }]) rest inputs
        else if p.override_output_parameter_name then
          process_parameters_loop argument_parameters extra_parameters is_repeated
            skip_looping action_index (done ++ [p]) rest inputs
        else
          match handle_user_input p.type copy.default_value inputs 20 with
          | (.ok v, inputs1) =>
              process_parameters_loop argument_parameters extra_parameters is_repeated
                skip_looping action_index (done ++ [{ p with value := v }]) rest inputs1
          | (.error e, inputs1) => (.error e, done ++ p :: rest, inputs1)

/-- services/parameter_processing.py: `process_parameters`.  Returns the
`ResultObject`, the mutated parameter list (the in-place mutations survive
even when an exception is caught, because the caller's action object holds
the same list), and the remaining input stream. -/
def process_parameters (om_parameters argument_parameters extra_parameters : List OMParameter)
    (is_repeated skip_looping : Bool) (action_index : Int) (inputs : List String) :
    ResultObject × List OMParameter × List String :=
  match process_parameters_loop argument_parameters extra_parameters is_repeated
      skip_looping action_index [] om_parameters inputs with
  | (.ok _, oms, inputs1) =>
      ({ success := true, text := some "", parameters := oms }, oms, inputs1)
  | (.error .eofError, oms, inputs1) =>
      ({ success := false, text := some "Aborted the Operation using CTRL+D" }, oms, inputs1)
  | (.error _, oms, inputs1) =>
      ({ success := false,
         text := some ("An error occurred while processing the parameters: " ++
           "Infinite loop detected while processing the parameters") }, oms, inputs1)

/-- models/om_action.py: `OMActionType`. -/
inductive OMActionType where
  | API_REQUEST
  | FUNCTION_CALL
  | LOOP_START
  | LOOP_END
deriving DecidableEq, Repr

/-- models/om_condition.py: `OMCondition`. -/
structure OMCondition where
  parameter_name : String
  jsonpath : String
  regex : String
  skip_if_path_not_found : Option Bool := none
deriving DecidableEq, Repr

/-- models/om_condition_group.py: `OMConditionGroupOperator`. -/
inductive OMConditionGroupOperator where
  | AND
  | OR
deriving DecidableEq, Repr

/-- models/om_condition_group.py: `OMConditionGroup`. -/
structure OMConditionGroup where
  conditions : List OMCondition
  operator : OMConditionGroupOperator := .AND
deriving DecidableEq, Repr

/-- models/om_action.py: `OMAction`. -/
structure OMAction where
  type : OMActionType
  name : String
  loop_number : Option Int := none
  custom_loop_repeat_prompt : Option String := none
  failure_termination : Bool := true
  parameters : List OMParameter := []
  skip_if_conditions : List OMConditionGroup := []
deriving DecidableEq, Repr

/-- models/om_operation.py: `OMOperation`.  `actions` is optional because
`process_operation` has a dedicated branch for a missing action list. -/
structure OMOperation where
  operation_id : String
  menu_title : String
  help_text : String := "This is a sample help text"
  actions : Option (List OMAction) := none

/-- The external collaborators of `OMCondition.evaluate`: the jsonpath_ng
parse/find pipeline applied to the (possibly JSON-decoded) parameter value,
returning the `str(...)` forms of the matches, and `re.search`. -/
structure JsonTools where
  find : String → Option PyVal → List String
  search : String → String → Bool

/-- models/om_condition.py: `OMCondition.evaluate`.  The return value is a
Python `bool | None`: with zero matches the stored `skip_if_path_not_found`
is returned unchanged (`None` when unset); otherwise True exactly when the
regex matches the string form of some match. -/
def OMCondition.evaluate (c : OMCondition) (jt : JsonTools)
    (om_parameters : List OMParameter) : Option Bool :=
  let found :=
    match get_om_parameter om_parameters c.parameter_name (some (-1)) with
    | some p => jt.find c.jsonpath p.value
    | none => []
  if found.isEmpty then c.skip_if_path_not_found
  else some (found.any (fun m => jt.search c.regex m))

/-- models/om_condition_group.py: `OMConditionGroup.evaluate`; `all`/`any`
over the conditions, each result used by its Python truthiness. -/
def OMConditionGroup.evaluate (g : OMConditionGroup) (jt : JsonTools)
    (parameters : List OMParameter) : Bool :=
  match g.operator with
  | .AND => g.conditions.all (fun c => (c.evaluate jt parameters).getD false)
  | .OR => g.conditions.any (fun c => (c.evaluate jt parameters).getD false)

/-- services/operation_processing.py: `should_skip_action` — with a nonempty
group list the action is skipped iff every group evaluates true; with no
groups it is never skipped. -/
def should_skip_action (action : OMAction) (jt : JsonTools)
    (om_parameters : List OMParameter) : Bool :=
  if action.skip_if_conditions.isEmpty then false
  else action.skip_if_conditions.all (fun g => g.evaluate jt om_parameters)

/-- models/loop_state.py: `LoopState`.  The loop-stack entries and the
loop-start keys are the actions' `loop_number` values, which may be the
Python `None`. -/
structure LoopState where
  loop_starts : List (Option Int × Nat) := []
  loop_stack : List (Option Int) := []
  action_index : Nat := 0
deriving DecidableEq, Repr

def LoopState.increment_action_index (ls : LoopState) : LoopState :=
  { ls with action_index := ls.action_index + 1 }

def LoopState.set_action_index (ls : LoopState) (index : Nat) : LoopState :=
  { ls with action_index := index }

/-- Dict upsert `loop_starts[loop_number] = index`. -/
def LoopState.add_loop_start (ls : LoopState) (loop_number : Option Int) (index : Nat) :
    LoopState :=
  if (ls.loop_starts.find? (fun e => e.1 == loop_number)).isSome then
    { ls with loop_starts :=
        ls.loop_starts.map (fun e => if e.1 == loop_number then (loop_number, index) else e) }
  else
    { ls with loop_starts := ls.loop_starts ++ [(loop_number, index)] }

/-- Dict `loop_starts.get(loop_number)`; `none` is the Python `None`. -/
def LoopState.get_loop_start (ls : LoopState) (loop_number : Option Int) : Option Nat :=
  (ls.loop_starts.find? (fun e => e.1 == loop_number)).map (fun e => e.2)

def LoopState.push_loop_stack (ls : LoopState) (loop_number : Option Int) : LoopState :=
  { ls with loop_stack := ls.loop_stack ++ [loop_number] }

def LoopState.pop_loop_stack (ls : LoopState) : LoopState :=
  { ls with loop_stack := ls.loop_stack.dropLast }

/-- Python `peek_loop_stack`: the last stack entry, or `None` when the stack
is empty (an entry that is itself `None` is indistinguishable from that). -/
def LoopState.peek_loop_stack (ls : LoopState) : Option Int :=
  match ls.loop_stack.getLast? with
  | none => none
  | some v => v

/-- services/operation_processing.py, `process_looping`: the inner
`while not repeat_loop_prompt_success` prompt loop at a LOOP_END; an
exhausted input stream raises `EOFError`.  True means the answer was y. -/
def loop_end_prompt : List String → Except PyExc (Bool × List String)
  | [] => .error .eofError
  | i :: rest =>
      if pyLower i = "y" then .ok (true, rest)
      else if pyLower i = "n" then .ok (false, rest)
      else loop_end_prompt rest

/-- services/operation_processing.py: `process_looping`.  Returns the result
string ("continue", "break" or ""), the updated loop state and the
remaining inputs; `ValueError` models the raise for a repeat_loop without
a loop number, and `noneIndexError` models assigning a missing loop start
(`None`) to the cursor, which Python surfaces as an uncaught `TypeError`
at the next `while` comparison. -/
def process_looping (action : OMAction) (loop_state : LoopState)
    (parameters : List OMParameter) (skip_looping : Bool) (repeat_loop : Option Bool)
    (inputs : List String) : Except PyExc (String × LoopState × List String) :=
  if skip_looping ∧ (action.type = .LOOP_START ∨ action.type = .LOOP_END) then
    .ok ("continue", loop_state.increment_action_index, inputs)
  else
    match repeat_loop with
    | some rl =>
        match action.loop_number with
        | none => .error .valueError
        | some _ =>
            if rl then
              match loop_state.get_loop_start action.loop_number with
              | some i => .ok ("continue", loop_state.set_action_index i, inputs)
              | none => .error .noneIndexError
            else
              .ok ("continue", loop_state.pop_loop_stack.increment_action_index, inputs)
    | none =>
        match action.type with
        | .LOOP_START =>
            let ls :=
              if action.loop_number ∈ loop_state.loop_stack then loop_state
              else (loop_state.add_loop_start action.loop_number
                      loop_state.action_index).push_loop_stack action.loop_number
            .ok ("continue", ls.increment_action_index, inputs)
        | .LOOP_END =>
            if loop_state.peek_loop_stack = action.loop_number then
              match loop_end_prompt inputs with
              | .error e => .error e
              | .ok (true, rest) =>
                  match loop_state.get_loop_start action.loop_number with
                  | some i => .ok ("continue", loop_state.set_action_index i, rest)
                  | none => .error .noneIndexError
              | .ok (false, rest) =>
                  .ok ("continue", loop_state.pop_loop_stack.increment_action_index, rest)
            else
              match inputs with
              | [] => .error .eofError
              | _ :: rest => .ok ("break", loop_state, rest)
        | _ => .ok ("", loop_state, inputs)

/-- The external collaborators and configuration of one operation run: the
action-pack registry, the API handler, the jsonpath/regex tools and the
pieces of the generated command line that come from the environment. -/
structure OpEnv where
  registry : String → Option (ResultObject → List OMParameter → Nat → ResultObject)
  api : String → List OMParameter → Nat → ResultObject
  jt : JsonTools
  commandBase : String := ""
  argument_custom_path : Option String := none
  argument_om_tree_file_path : Option String := none
  argument_mock_api_responses_file_path : Option String := none

/-- models/action_processing_state.py (`OperationProcessingState`) together
with the loop-local variables of `process_operation`.  `trace` is proof
instrumentation only: the names of the actions actually dispatched (API
request performed or registry function invoked), in order. -/
structure OpState where
  operation_id : String
  actions : List OMAction
  loop_state : LoopState := {}
  extra_parameters : List OMParameter := []
  parameter_history : List OMParameter := []
  api_result_history : List (Option String) := []
  action_history : List String := []
  result_object : ResultObject
  inputs : List String
  trace : List String := []
deriving Repr

/-- The outcome of one iteration of the `while` loop of `process_operation`:
advance to the next check, break out with `failed_processing = True`, or
let an exception escape the function. -/
inductive IterOut where
  | next (s : OpState)
  | halt (s : OpState)
  | crash

/-- services/operation_processing.py, lines 244-256: the `except EOFError`
handler — replace the result object with the abort result, then prompt
(a second end-of-input inside the handler escapes the function). -/
def eof_handler (s : OpState) : IterOut :=
  let s := { s with result_object :=
    { success := false, text := some "Aborted the Operation using CTRL+D" } }
  match s.inputs with
  | [] => .crash
  | _ :: rest => .halt { s with inputs := rest }

/-- services/operation_processing.py, lines 257-267: the generic
`except Exception` handler — prompt and break, result object unchanged. -/
def exc_handler (s : OpState) : IterOut :=
  match s.inputs with
  | [] => .crash
  | _ :: rest => .halt { s with inputs := rest }

/-- services/operation_processing.py, lines 164-168: the user-abort check
applied to the result of `process_parameters` (note the spaces around the
plus sign in the compared text). -/
def isCtrlDAbort (r : ResultObject) : Bool :=
  !r.success && pyTruthyStr r.text && (r.text == some "Aborted the Operation using CTRL + D")

/-- services/operation_processing.py: `process_action`.  Dispatch by action
type; an unknown registry name or an unknown type prompts and reports
"break" with the PREVIOUS result object unchanged. -/
def process_action (env : OpEnv) (action : OMAction)
    (processed_parameters : List OMParameter) (result_object : ResultObject)
    (action_index : Nat) (extra : List OMParameter)
    (apiHist : List (Option String)) (trace : List String) (inputs : List String) :
    Except PyExc (ResultObject × String × List OMParameter × List (Option String) ×
      List String × List String) :=
  match action.type with
  | .API_REQUEST =>
      let r := env.api action.name processed_parameters action_index
      let extra := if ¬r.parameters.isEmpty then merge extra r.parameters else extra
      let entry : Option String :=
        match r.response with
        | some resp => if resp.ok ∧ resp.text ≠ "" then some resp.text else r.text
        | none => r.text
      .ok (r, "", extra, apiHist ++ [entry], trace ++ [action.name], inputs)
  | .FUNCTION_CALL =>
      match env.registry action.name with
      | some f =>
          let r := f result_object processed_parameters action_index
          let extra := if ¬r.parameters.isEmpty then merge extra r.parameters else extra
          .ok (r, "", extra, apiHist, trace ++ [action.name], inputs)
      | none =>
          match inputs with
          | [] => .error .eofError
          | _ :: rest => .ok (result_object, "break", extra, apiHist, trace, rest)
  | _ =>
      match inputs with
      | [] => .error .eofError
      | _ :: rest => .ok (result_object, "break", extra, apiHist, trace, rest)

/-- services/operation_processing.py, lines 217-243: the tail of the loop
body after the repeat-action prompt — merge the accumulated scope into the
parameter history, apply the failure-termination rule, else advance. -/
def after_repeat_prompt (s : OpState) (action : OMAction) : IterOut :=
  let s := { s with parameter_history := merge s.parameter_history s.extra_parameters }
  if s.result_object.success = false ∧ action.failure_termination then
    match s.inputs with
    | [] => eof_handler s
    | _ :: rest => .halt { s with inputs := rest }
  else
    .next { s with loop_state := s.loop_state.increment_action_index }

/-- services/operation_processing.py: one iteration of the `while` loop of
`process_operation` (the `try` body plus its handlers), for the action at
the current cursor. -/
def runIter (env : OpEnv) (argument_parameters : List OMParameter) (skip_looping : Bool)
    (s : OpState) (action : OMAction) : IterOut :=
  if should_skip_action action env.jt s.extra_parameters then
    .next { s with loop_state := s.loop_state.increment_action_index }
  else
    match process_looping action s.loop_state s.extra_parameters skip_looping
        s.result_object.repeat_loop s.inputs with
    | .error .eofError => eof_handler s
    | .error .noneIndexError => .crash
    | .error _ => exc_handler s
    | .ok (lr, ls1, inputs1) =>
        let s := { s with loop_state := ls1, inputs := inputs1 }
        if lr = "continue" then
          .next { s with result_object := { s.result_object with repeat_loop := none } }
        else if lr = "break" then
          match s.inputs with
          | [] => eof_handler s
          | _ :: rest => .halt { s with inputs := rest }
        else
          let is_repeated := action.name ∈ s.action_history
          let hasParams := ¬action.parameters.isEmpty
          let ppOut :=
            if hasParams then
              process_parameters action.parameters argument_parameters s.extra_parameters
                is_repeated skip_looping (s.loop_state.action_index : Int) s.inputs
            else ({ success := true, text := some "" }, action.parameters, s.inputs)
          let ppr := ppOut.1
          let newActions :=
            if hasParams then
              s.actions.set s.loop_state.action_index { action with parameters := ppOut.2.1 }
            else s.actions
          let s := { s with inputs := ppOut.2.2, actions := newActions }
          if isCtrlDAbort ppr then
            match s.inputs with
            | [] => eof_handler s
            | _ :: rest => .halt { s with inputs := rest }
          else if hasParams ∧ ppr.success = false then
            match s.inputs with
            | [] => eof_handler s
            | _ :: rest => .halt { s with inputs := rest }
          else
            let processed := ppr.parameters
            let extra1 := merge s.extra_parameters processed
            let processed := merge processed extra1
            let s := { s with extra_parameters := extra1 }
            match process_action env action processed s.result_object
                s.loop_state.action_index s.extra_parameters s.api_result_history
                s.trace s.inputs with
            | .error .eofError => eof_handler s
            | .error .noneIndexError => .crash
            | .error _ => exc_handler s
            | .ok (r, status, extra2, apiHist2, trace2, inputs2) =>
                let s := { s with
                  result_object := r
                  extra_parameters := extra2
                  api_result_history := apiHist2
                  trace := trace2
                  inputs := inputs2 }
                if status = "break" then
                  match s.inputs with
                  | [] => eof_handler s
                  | _ :: rest => .halt { s with inputs := rest }
                else
                  let newHistory :=
                    if action.name ∈ s.action_history then s.action_history
                    else s.action_history ++ [action.name]
                  let s := { s with action_history := newHistory }
                  if s.result_object.repeat_action then
                    match s.inputs with
                    | [] => eof_handler s
                    | i :: rest =>
                        let s := { s with inputs := rest }
                        if pyLower i = "y" then .next s
                        else after_repeat_prompt s action
                  else after_repeat_prompt s action

/-- The observable outcome of `process_operation`: the final state plus the
generated command, an escaped exception, or exhausted fuel for the
embedded `while` loop. -/
inductive RunOutcome where
  | done (s : OpState) (command : Option String)
  | crash
  | fuelOut

/-- Python `f-string` rendering of a stored parameter value. -/
def pyFormatValue : Option PyVal → String
  | none => "None"
  | some v => v.toPyString

/-- services/operation_processing.py: `generate_command`. -/
def generate_command (env : OpEnv) (operation_id : String)
    (prepared_parameters : List OMParameter) : String :=
  let command := env.commandBase
  let command := command ++
    (match env.argument_custom_path with
     | some s => if s ≠ "" then " -c \"" ++ s ++ "\"" else ""
     | none => "")
  let command := command ++
    (match env.argument_om_tree_file_path with
     | some s => if s ≠ "" then " -t \"" ++ s ++ "\"" else ""
     | none => "")
  let command := command ++
    (match env.argument_mock_api_responses_file_path with
     | some s => if s ≠ "" then " -m \"" ++ s ++ "\"" else ""
     | none => "")
  let command := command ++ " -o \"" ++ operation_id ++ "\""
  prepared_parameters.foldl
    (fun cmd p =>
      if p.command_parameter = false then cmd
      else
        let value := pyFormatValue p.value
        let value := if p.type = .STRING then "\"" ++ value ++ "\"" else value
        cmd ++ " " ++ p.name ++ "=" ++ value)
    command

/-- services/operation_processing.py: the `while` loop of `process_operation`
with the post-loop command generation, driven by explicit fuel (the source
loop has no structural termination measure). -/
def runOps (env : OpEnv) (argument_parameters : List OMParameter) (skip_looping : Bool) :
    Nat → OpState → RunOutcome
  | 0, _ => .fuelOut
  | fuel + 1, s =>
      if h : s.loop_state.action_index < s.actions.length then
        match runIter env argument_parameters skip_looping s
            (s.actions.get ⟨s.loop_state.action_index, h⟩) with
        | .next s1 => runOps env argument_parameters skip_looping fuel s1
        | .halt s1 => .done s1 none
        | .crash => .crash
      else
        match s.inputs with
        | [] => .crash
        | _ :: rest =>
            .done { s with inputs := rest }
              (some (generate_command env s.operation_id s.parameter_history))

/-- services/operation_processing.py: `process_operation`.  Deep-copies the
actions (value semantics here), seeds the accumulated scope with the
`operation_id` parameter and runs the action loop. -/
def process_operation (env : OpEnv) (operation : OMOperation)
    (argument_parameters : List OMParameter) (skip_looping : Bool)
    (inputs : List String) (fuel : Nat) : RunOutcome :=
  let result_object : ResultObject := { success := true, text := some "" }
  let extra0 : List OMParameter := [{
    name := "operation_id"
    type := .STRING
    value := some (.str operation.operation_id)
    action_index := some (-1) }]
  match operation.actions with
  | none =>
      match inputs with
      | [] => .crash
      | _ :: rest =>
          .done {
            operation_id := operation.operation_id
            actions := []
            extra_parameters := extra0
            result_object := result_object
            inputs := rest } none
  | some acts =>
      runOps env argument_parameters skip_looping fuel {
        operation_id := operation.operation_id
        actions := acts
        extra_parameters := extra0
        result_object := result_object
        inputs := inputs }

/-! Concrete fixtures used by the claim theorems and witnesses below. -/

/-- Json tools whose path lookup finds nothing. -/
def jtNone : JsonTools := { find := fun _ _ => [], search := fun _ _ => false }

/-- A condition with `skip_if_path_not_found` unset. -/
def condC6 : OMCondition := { parameter_name := "p", jsonpath := "status", regex := "active" }

/-- A non-stick parameter with no value. -/
def pC2 : OMParameter := { name := "x", non_stick := true }

/-- An accumulated-scope entry for the same name. -/
def pC2extra : OMParameter := { name := "x", value := some (.str "v") }

/-- A parameter whose value contains two distinct resolvable placeholders. -/
def pC3 : OMParameter := { name := "t", value := some (.str "\x7b\x7ba\x7d\x7d-\x7b\x7bb\x7d\x7d") }

def pC3a : OMParameter := { name := "a", value := some (.str "X") }

def pC3b : OMParameter := { name := "b", value := some (.str "Y") }

/-- A parameter whose value contains an unresolvable placeholder. -/
def pC3miss : OMParameter := { name := "u", value := some (.str "pre \x7b\x7bmissing\x7d\x7d post") }

/-- A plain promptable string parameter. -/
def pC4 : OMParameter := { name := "q" }

/-- A promptable BOOLEAN parameter. -/
def pC5bool : OMParameter := { name := "flag", type := .BOOLEAN }

/-- A promptable parameter of the given type and default. -/
def pC8 (ty : OMParameterType) (d : Option String) : OMParameter :=
  { name := "q", type := ty, default_value := d }

/-- An empty AND condition group. -/
def gAndEmpty : OMConditionGroup := { conditions := [] }

/-- An action whose skip conditions are two empty AND groups. -/
def aC10 : OMAction :=
  { type := .FUNCTION_CALL, name := "act", skip_if_conditions := [gAndEmpty, gAndEmpty] }

/-- The result returned by the registry function for action A. -/
def RA : ResultObject := { success := true, text := some "ok" }

/-- The environment for the loop-replay run: a registry containing only the
function A, which succeeds and produces nothing. -/
def envC1 : OpEnv :=
  { registry := fun n => if n = "A" then some (fun _ _ _ => RA) else none
    api := fun _ _ _ => { success := false }
    jt := jtNone }

def actLS : OMAction := { type := .LOOP_START, name := "LS", loop_number := some 1 }

def actA : OMAction := { type := .FUNCTION_CALL, name := "A" }

def actLE : OMAction := { type := .LOOP_END, name := "LE", loop_number := some 1 }

/-- The action list LOOP_START(1) -> A -> LOOP_END(1). -/
def actsC1 : List OMAction := [actLS, actA, actLE]

def opC1 : OMOperation :=
  { operation_id := "loop-op", menu_title := "Loop", actions := some actsC1 }

/-- The accumulated scope seeded by `process_operation` for `opC1`. -/
def extraC1 : List OMParameter :=
  [{ name := "operation_id", type := .STRING, value := some (.str "loop-op"),
     action_index := some (-1) }]

/-- The initial result object of `process_operation`. -/
def R0 : ResultObject := { success := true, text := some "" }

/-- A state of the loop-replay run: cursor `i`, loop stack `stack`, the
loop start for loop 1 recorded at index 0, remaining inputs `ins`,
dispatch trace `t`, action history `hy`, parameter history `hist` and
current result object `r`. -/
def mkC1 (i : Nat) (stack : List (Option Int)) (ins t hy : List String)
    (hist : List OMParameter) (r : ResultObject) : OpState :=
  { operation_id := "loop-op"
    actions := actsC1
    loop_state := { loop_starts := [(some 1, 0)], loop_stack := stack, action_index := i }
    extra_parameters := extraC1
    parameter_history := hist
    action_history := hy
    result_object := r
    inputs := ins
    trace := t }

/-- The result of the present registry function in the C7 run. -/
def RG : ResultObject := { success := true, text := some "g" }

/-- The environment for the unknown-function run: the registry knows only
the name "present". -/
def envC7 : OpEnv :=
  { registry := fun n => if n = "present" then some (fun _ _ _ => RG) else none
    api := fun _ _ _ => { success := false }
    jt := jtNone }

def actsC7 : List OMAction :=
  [{ type := .FUNCTION_CALL, name := "missing" }, { type := .FUNCTION_CALL, name := "present" }]

def opC7 : OMOperation := { operation_id := "op7", menu_title := "m", actions := some actsC7 }

def extraC7 : List OMParameter :=
  [{ name := "operation_id", type := .STRING, value := some (.str "op7"),
     action_index := some (-1) }]

/-- The final state of the unknown-function run: halted at cursor 0, nothing
dispatched, the initial result object unchanged. -/
def sC7final : OpState :=
  { operation_id := "op7"
    actions := actsC7
    extra_parameters := extraC7
    result_object := { success := true, text := some "" }
    inputs := []
    trace := [] }

/-! Merge lemmas for the C9 idempotence proof. -/

theorem names_mergeItem_superset {a : String} {qs : List OMParameter}
    (p : OMParameter) (h : a ∈ names qs) : a ∈ names (mergeItem qs p) := by
  induction qs with
  | nil => simp [names] at h
  | cons q rest ih =>
      by_cases hq : q.name = p.name
      · simp only [mergeItem, if_pos hq, names, List.map_cons, List.mem_cons]
        simp only [names, List.map_cons, List.mem_cons] at h
        rcases h with h | h
        · exact Or.inl (hq ▸ h)
        · exact Or.inr h
      · simp only [mergeItem, if_neg hq, names, List.map_cons, List.mem_cons]
        simp only [names, List.map_cons, List.mem_cons] at h
        rcases h with h | h
        · exact Or.inl h
        · exact Or.inr (ih h)

theorem mem_names_mergeItem_self (qs : List OMParameter) (p : OMParameter) :
    p.name ∈ names (mergeItem qs p) := by
  induction qs with
  | nil => simp [mergeItem, names]
  | cons q rest ih =>
      by_cases hq : q.name = p.name
      · simp [mergeItem, if_pos hq, names]
      · simp only [mergeItem, if_neg hq, names, List.map_cons, List.mem_cons]
        exact Or.inr ih

theorem names_merge_superset {a : String} {qs : List OMParameter}
    (ps : List OMParameter) (h : a ∈ names qs) : a ∈ names (merge qs ps) := by
  induction ps generalizing qs with
  | nil => exact h
  | cons p rest ih => exact ih (names_mergeItem_superset p h)

theorem mem_names_merge {q : OMParameter} {ps : List OMParameter}
    (qs : List OMParameter) (h : q ∈ ps) : q.name ∈ names (merge qs ps) := by
  induction ps generalizing qs with
  | nil => cases h
  | cons p rest ih =>
      rcases List.mem_cons.mp h with h | h
      · subst h
        exact names_merge_superset rest (mem_names_mergeItem_self qs q)
      · exact ih (mergeItem qs p) h

/-- Re-merging an item with the same name overwrites the earlier merge. -/
theorem mergeItem_same {p q : OMParameter} (qs : List OMParameter)
    (h : q.name = p.name) : mergeItem (mergeItem qs p) q = mergeItem qs q := by
  induction qs with
  | nil => simp [mergeItem, h]
  | cons x rest ih =>
      by_cases hx : x.name = p.name
      · simp [mergeItem, if_pos hx, h, hx]
      · have hxq : ¬ x.name = q.name := fun hc => hx (hc.trans h)
        simp [mergeItem, if_pos hx, if_neg hx, if_neg hxq, ih]

/-- Merging two items with distinct names commutes, provided at least one of
the names is already present (so that at most one append happens). -/
theorem mergeItem_comm {p q : OMParameter} (qs : List OMParameter)
    (hpq : p.name ≠ q.name)
    (h : p.name ∈ names qs ∨ q.name ∈ names qs) :
    mergeItem (mergeItem qs p) q = mergeItem (mergeItem qs q) p := by
  have hqp : ¬ q.name = p.name := fun hc => hpq hc.symm
  have hpq' : ¬ p.name = q.name := hpq
  induction qs with
  | nil => simp [names] at h
  | cons x rest ih =>
      by_cases hxp : x.name = p.name
      · have hxq : ¬ x.name = q.name := fun hc => hpq (hxp.symm.trans hc)
        simp [mergeItem, hxp, hxq, hpq', hqp]
      · by_cases hxq : x.name = q.name
        · simp [mergeItem, hxp, hxq, hpq', hqp]
        · have h' : p.name ∈ names rest ∨ q.name ∈ names rest := by
            simp only [names, List.map_cons, List.mem_cons] at h
            rcases h with (h | h) | (h | h)
            · exact absurd h.symm hxp
            · exact Or.inl h
            · exact absurd h.symm hxq
            · exact Or.inr h
          simp [mergeItem, hxp, hxq, ih h']

/-- A merged-in item whose name is written again later in the list is
absorbed, provided its name is already present in the target list. -/
theorem merge_absorb {p : OMParameter} (ps : List OMParameter)
    (qs : List OMParameter)
    (hR : p.name ∈ names qs) (hP : p.name ∈ names ps) :
    merge (mergeItem qs p) ps = merge qs ps := by
  induction ps generalizing qs with
  | nil => simp [names] at hP
  | cons q rest ih =>
      by_cases hq : q.name = p.name
      · show merge (mergeItem (mergeItem qs p) q) rest = merge (mergeItem qs q) rest
        rw [mergeItem_same qs hq]
      · have hP' : p.name ∈ names rest := by
          simp only [names, List.map_cons, List.mem_cons] at hP
          rcases hP with hP | hP
          · exact absurd hP.symm hq
          · exact hP
        show merge (mergeItem (mergeItem qs p) q) rest = merge (mergeItem qs q) rest
        rw [mergeItem_comm qs (fun hc => hq hc.symm) (Or.inl hR)]
        exact ih (mergeItem qs q) (names_mergeItem_superset q hR) hP'

/-- A merged-in item whose name does not occur in the list being merged
commutes past the whole merge, provided every merged name is already
present in the target (so no append order is disturbed). -/
theorem mergeItem_merge_comm {p : OMParameter} (ps : List OMParameter)
    (qs : List OMParameter)
    (hpres : ∀ q ∈ ps, q.name ∈ names qs) (hp : p.name ∉ names ps) :
    merge (mergeItem qs p) ps = mergeItem (merge qs ps) p := by
  induction ps generalizing qs with
  | nil => rfl
  | cons q rest ih =>
      have hq : q.name ∈ names qs := hpres q (List.mem_cons_self q rest)
      have hpq : p.name ≠ q.name := by
        intro hc
        exact hp (by simp [names, hc])
      have hp' : p.name ∉ names rest := fun hc => hp (by simp [names] at hc ⊢; exact Or.inr hc)
      show merge (mergeItem (mergeItem qs p) q) rest = mergeItem (merge (mergeItem qs q) rest) p
      rw [mergeItem_comm qs hpq (Or.inr hq)]
      exact ih (mergeItem qs q)
        (fun r hr => names_mergeItem_superset q (hpres r (List.mem_cons_of_mem q hr))) hp'

theorem merge_append_singleton (qs ps : List OMParameter) (p : OMParameter) :
    merge qs (ps ++ [p]) = mergeItem (merge qs ps) p := by
  simp [merge, List.foldl_append]

/-- C9 core lemma: `OMParameterList.merge` is idempotent — merging the same
list a second time leaves the result unchanged. -/
theorem merge_merge_self (ps : List OMParameter) :
    ∀ qs : List OMParameter, merge (merge qs ps) ps = merge qs ps := by
  induction ps using List.reverseRecOn with
  | nil => intro qs; rfl
  | append_singleton rest p ih =>
      intro qs
      rw [merge_append_singleton, merge_append_singleton]
      by_cases hp : p.name ∈ names rest
      · have hpres : p.name ∈ names (merge qs rest) := by
          simp only [names, List.mem_map] at hp
          rcases hp with ⟨q, hq, hqn⟩
          exact hqn ▸ mem_names_merge qs hq
        rw [merge_absorb rest (merge qs rest) hpres hp, ih qs]
      · rw [mergeItem_merge_comm rest (merge qs rest)
              (fun q hq => mem_names_merge qs hq) hp]
        rw [mergeItem_same (merge (merge qs rest) rest) rfl]
        rw [ih qs]

/-! Claim theorems. -/

/-- C9: for all parameter lists P and Q, merging P into Q twice yields the
same list as merging P into Q once — `OMParameterList.merge` is idempotent
under re-merging identical content. -/
theorem C9_merge_idempotent (P Q : List OMParameter) :
    merge (merge Q P) P = merge Q P :=
  merge_merge_self P Q

/-- C10: an `OMConditionGroup` whose conditions list is empty evaluates to
true under AND and to false under OR, for every scope and every json/regex
collaborator; consequently an action whose (nonempty) `skip_if_conditions`
consist only of empty AND groups is always skipped. -/
theorem C10_empty_condition_groups (jt : JsonTools) (ps : List OMParameter) (a : OMAction)
    (hne : a.skip_if_conditions ≠ [])
    (hall : ∀ g ∈ a.skip_if_conditions, g.conditions = [] ∧ g.operator = .AND) :
    OMConditionGroup.evaluate { conditions := [] } jt ps = true ∧
    OMConditionGroup.evaluate { conditions := [], operator := .OR } jt ps = false ∧
    should_skip_action a jt ps = true := by
  refine ⟨rfl, rfl, ?_⟩
  have hie : a.skip_if_conditions.isEmpty = false := by
    cases h : a.skip_if_conditions with
    | nil => exact absurd h hne
    | cons x xs => rfl
  simp only [should_skip_action, hie, Bool.false_eq_true, if_false, List.all_eq_true]
  intro g hg
  obtain ⟨h1, h2⟩ := hall g hg
  simp [OMConditionGroup.evaluate, h1, h2]

/-- C10 witness: an action with two empty AND skip groups is skipped. -/
theorem C10_witness : should_skip_action aC10 jtNone [] = true :=
  (C10_empty_condition_groups jtNone [] aC10 (by decide) (by decide)).2.2

/-- C6 counterexample: with zero matches and `skip_if_path_not_found` unset,
`OMCondition.evaluate` returns the Python `None` — not `False` as the
claim states (the two are distinct Python values). -/
theorem C6_counterexample :
    OMCondition.evaluate condC6 jtNone [] = none ∧ (none : Option Bool) ≠ some false :=
  ⟨rfl, by decide⟩

/-- C6 amended: with zero matches (including an absent parameter) `evaluate`
returns `skip_if_path_not_found` unchanged — the Python `None`, falsy for
the group evaluator, when the field is unset — and with at least one match
it returns true iff the regex matches the string form of some match. -/
theorem C6_condition_evaluate (c : OMCondition) (jt : JsonTools) (ps : List OMParameter) :
    (get_om_parameter ps c.parameter_name (some (-1)) = none →
      c.evaluate jt ps = c.skip_if_path_not_found) ∧
    (∀ found, get_om_parameter ps c.parameter_name (some (-1)) = some found →
      jt.find c.jsonpath found.value = [] →
      c.evaluate jt ps = c.skip_if_path_not_found) ∧
    (∀ found m ms, get_om_parameter ps c.parameter_name (some (-1)) = some found →
      jt.find c.jsonpath found.value = m :: ms →
      (c.evaluate jt ps = some true ↔ ∃ x ∈ m :: ms, jt.search c.regex x = true)) ∧
    (c.skip_if_path_not_found = none →
      get_om_parameter ps c.parameter_name (some (-1)) = none →
      (c.evaluate jt ps).getD false = false) := by
  refine ⟨?_, ?_, ?_, ?_⟩
  · intro h
    simp [OMCondition.evaluate, h]
  · intro found h hfind
    simp [OMCondition.evaluate, h, hfind]
  · intro found m ms h hfind
    simp [OMCondition.evaluate, h, hfind, List.any_eq_true]
  · intro hunset h
    simp [OMCondition.evaluate, h, hunset]

/-- C6 amended witness: an absent parameter yields the stored fallback. -/
theorem C6_condition_evaluate_witness :
    OMCondition.evaluate condC6 jtNone [] = condC6.skip_if_path_not_found :=
  (C6_condition_evaluate condC6 jtNone []).1 rfl

/-- C2 counterexample: a non-stick parameter on a repeated action with
`skip_looping` set, present in the accumulated scope and absent from the
arguments: the claim's three-disjunct rule (which includes `skip_looping`)
would use the accumulated value, but the code does not (its accumulated
branch tests only the two stickiness disjuncts), leaving the parameter
unused and unchanged. -/
theorem C2_counterexample :
    get_om_parameter [pC2extra] "x" (some 0) = some pC2extra ∧
    (check_for_provided_parameters pC2 "x" [] [pC2extra] (some 0) true true).1 = false ∧
    (check_for_provided_parameters pC2 "x" [] [pC2extra] (some 0) true true).2 = pC2 := by
  refine ⟨by decide, by decide, by decide⟩

/-- C2 amended: a provided value is used iff it comes from the argument list
under the three-disjunct rule (`skip_looping` OR not non-stick OR not
repeated), or else from the accumulated list under the TWO-disjunct rule
(not non-stick OR not repeated) — `skip_looping` does not occur in the
accumulated branch. -/
theorem C2_provided_parameter_rule (p : OMParameter) (input_name : String)
    (args extra : List OMParameter) (ai : Option Int) (is_rep skip_l : Bool) :
    (check_for_provided_parameters p input_name args extra ai is_rep skip_l).1 = true ↔
      ((¬args.isEmpty ∧ (skip_l = true ∨ p.non_stick = false ∨ is_rep = false) ∧
          find_and_update_parameter p args input_name ai ≠ none) ∨
       (¬extra.isEmpty ∧ (p.non_stick = false ∨ is_rep = false) ∧
          find_and_update_parameter p extra input_name ai ≠ none)) := by
  by_cases hc1 : ¬args.isEmpty ∧ (skip_l = true ∨ p.non_stick = false ∨ is_rep = false)
  · cases hf1 : find_and_update_parameter p args input_name ai with
    | some p1 =>
        simp only [check_for_provided_parameters, if_pos hc1, hf1]
        constructor
        · intro _
          exact Or.inl ⟨hc1.1, hc1.2, by simp⟩
        · intro _
          trivial
    | none =>
        by_cases hc2 : ¬extra.isEmpty ∧ (p.non_stick = false ∨ is_rep = false)
        · cases hf2 : find_and_update_parameter p extra input_name ai with
          | some p2 =>
              simp only [check_for_provided_parameters, if_pos hc1, hf1, if_pos hc2, hf2]
              constructor
              · intro _
                exact Or.inr ⟨hc2.1, hc2.2, by simp⟩
              · intro _
                trivial
          | none =>
              simp only [check_for_provided_parameters, if_pos hc1, hf1, if_pos hc2, hf2]
              constructor
              · intro h
                exact absurd h (by simp)
              · rintro (⟨_, _, hfind⟩ | ⟨_, _, hfind⟩)
                · exact (hfind rfl).elim
                · exact (hfind rfl).elim
        · simp only [check_for_provided_parameters, if_pos hc1, hf1, if_neg hc2]
          constructor
          · intro h
            exact absurd h (by simp)
          · rintro (⟨_, _, hfind⟩ | ⟨hne, hdisj, _⟩)
            · exact (hfind rfl).elim
            · exact absurd ⟨hne, hdisj⟩ hc2
  · by_cases hc2 : ¬extra.isEmpty ∧ (p.non_stick = false ∨ is_rep = false)
    · cases hf2 : find_and_update_parameter p extra input_name ai with
      | some p2 =>
          simp only [check_for_provided_parameters, if_neg hc1, if_pos hc2, hf2]
          constructor
          · intro _
            exact Or.inr ⟨hc2.1, hc2.2, by simp⟩
          · intro _
            trivial
      | none =>
          simp only [check_for_provided_parameters, if_neg hc1, if_pos hc2, hf2]
          constructor
          · intro h
            exact absurd h (by simp)
          · rintro (⟨hne, hdisj, _⟩ | ⟨_, _, hfind⟩)
            · exact absurd ⟨hne, hdisj⟩ hc1
            · exact (hfind rfl).elim
    · simp only [check_for_provided_parameters, if_neg hc1, if_neg hc2]
      constructor
      · intro h
        exact absurd h (by simp)
      · rintro (⟨hne, hdisj, _⟩ | ⟨hne, hdisj, _⟩)
        · exact absurd ⟨hne, hdisj⟩ hc1
        · exact absurd ⟨hne, hdisj⟩ hc2

/-- C3: the code substitutes each resolvable token into the ORIGINAL field
text and overwrites the previous substitution, so with two distinct
resolvable tokens only the LAST one ends substituted (the claim expects
"X-Y", the code produces the first token intact); a token found in no
scope is left intact, as claimed. -/
theorem C3_placeholder_overwrite :
    (replace_placeholders pC3 [pC3a, pC3b] [] []).value =
        some (.str "\x7b\x7ba\x7d\x7d-Y") ∧
    (replace_placeholders pC3 [pC3a, pC3b] [] []).value ≠ some (.str "X-Y") ∧
    (replace_placeholders pC3miss [pC3a, pC3b] [] []).value =
        some (.str "pre \x7b\x7bmissing\x7d\x7d post") := by
  refine ⟨by decide, by decide, by decide⟩

/-- C4: `process_parameters` reports the end-of-input abort with the marker
text "Aborted the Operation using CTRL+D", but the recognizer in
`process_operation` compares against "Aborted the Operation using
CTRL + D" (spaces around the plus), a different string, so the dedicated
user-abort branch never fires on the sentinel. -/
theorem C4_sentinel_mismatch :
    (process_parameters [pC4] [] [] false false 0 []).1.success = false ∧
    (process_parameters [pC4] [] [] false false 0 []).1.text =
        some "Aborted the Operation using CTRL+D" ∧
    isCtrlDAbort (process_parameters [pC4] [] [] false false 0 []).1 = false ∧
    ("Aborted the Operation using CTRL+D" : String) ≠
        "Aborted the Operation using CTRL + D" := by
  refine ⟨by decide, by decide, by decide, by decide⟩

/-- C5 counterexample: after interactive prompting of a BOOLEAN parameter
with input "true", the stored value is the Python bool True, not a
string — the all-values-are-strings invariant fails. -/
theorem C5_counterexample :
    (process_parameters [pC5bool] [] [] false false 0 ["true"]).1.parameters.map
        (fun q => q.value) = [some (.bool true)] ∧
    ∀ s : String, PyVal.bool true ≠ PyVal.str s := by
  refine ⟨by decide, fun s h => PyVal.noConfusion h⟩

theorem foldl_const {α β : Type} (f : α → β → α) (hs : ∀ a b, f a b = a) :
    ∀ (l : List β) (a : α), l.foldl f a = a := by
  intro l
  induction l with
  | nil => intro a; rfl
  | cons b t ih =>
      intro a
      rw [List.foldl_cons, hs a b]
      exact ih a

theorem findInScopes_mem {placeholder : String} {scopes : List (List OMParameter)}
    {q : OMParameter} (h : findInScopes placeholder scopes = some q) :
    ∃ l ∈ scopes, q ∈ l := by
  induction scopes with
  | nil => simp [findInScopes] at h
  | cons l rest ih =>
      simp only [findInScopes] at h
      cases hf : l.find? (fun r => r.name == placeholder) with
      | some r =>
          rw [hf] at h
          cases h
          exact ⟨l, List.mem_cons_self l rest, List.mem_of_find?_eq_some hf⟩
      | none =>
          rw [hf] at h
          obtain ⟨l2, hl2, hq⟩ := ih h
          exact ⟨l2, List.mem_cons_of_mem l hl2, hq⟩

/-- A placeholder pass over scopes all of whose parameters have no value
leaves the property text unchanged. -/
theorem replaceProperty_value_none (s : String) (scopes : List (List OMParameter))
    (hnone : ∀ l ∈ scopes, ∀ q ∈ l, q.value = none) :
    replaceProperty s scopes = s := by
  unfold replaceProperty
  apply foldl_const
  intro cur ph
  cases hfs : findInScopes ph scopes with
  | none => simp [hfs]
  | some param =>
      obtain ⟨l, hl, hq⟩ := findInScopes_mem hfs
      have hv : param.value = none := hnone l hl param hq
      simp [hfs, hv]

/-- The function `replace_placeholders` is the identity on a parameter with
no value, custom text, custom input name or preset, resolved against
itself. -/
theorem replace_placeholders_no_values (p : OMParameter)
    (hv : p.value = none) (hct : p.custom_text = none) (hcin : p.custom_input_name = none)
    (hpre : p.preset_value = none) :
    replace_placeholders p [p] [] [] = p := by
  obtain ⟨nm, ty, v, dv, pv, apn, cin, opn, ct, ns, cp, cup, oopn, ai⟩ := p
  dsimp only at hv hct hcin hpre
  subst hv hct hcin hpre
  cases dv with
  | none => rfl
  | some s =>
      by_cases hs : s = ""
      · subst hs; rfl
      · have hr : replaceProperty s
            [[⟨nm, ty, none, some s, none, apn, none, opn, none, ns, cp, cup, oopn, ai⟩],
             [], []] = s := by
          apply replaceProperty_value_none
          intro l hl q hq
          simp only [List.mem_cons, List.not_mem_nil, or_false] at hl
          rcases hl with rfl | rfl | rfl
          · have hq2 : q =
                ⟨nm, ty, none, some s, none, apn, none, opn, none, ns, cp, cup, oopn, ai⟩ := by
              simpa using hq
            subst hq2; rfl
          · cases hq
          · cases hq
        simp [replace_placeholders, hs, hr]

theorem handle_user_input_bound (ty : OMParameterType) (d : Option String) :
    ∀ (n : Nat) (inputs : List String),
      inputs.length ≤ ((handle_user_input ty d inputs n).2).length + n := by
  intro n
  induction n with
  | zero => intro inputs; simp [handle_user_input]
  | succ k ih =>
      intro inputs
      cases inputs with
      | nil => simp [handle_user_input]
      | cons i rest =>
          by_cases hv : (validate_and_convert_parameter_value (effectiveInput i d) ty).1 = true
          · simp [handle_user_input, hv]
          · simp only [handle_user_input, Bool.not_eq_true] at hv ⊢
            rw [hv]
            simp only [Bool.false_eq_true, if_false, List.length_cons]
            have := ih rest
            omega

theorem handle_user_input_all_invalid (ty : OMParameterType) (d : Option String) :
    ∀ (n : Nat) (inputs : List String), n ≤ inputs.length →
      (∀ s ∈ inputs, (validate_and_convert_parameter_value (effectiveInput s d) ty).1 = false) →
      handle_user_input ty d inputs n = (.error .recursionError, inputs.drop n) := by
  intro n
  induction n with
  | zero => intro inputs _ _; simp [handle_user_input]
  | succ k ih =>
      intro inputs hlen hfail
      cases inputs with
      | nil => simp at hlen
      | cons i rest =>
          have hv := hfail i (List.mem_cons_self i rest)
          simp only [handle_user_input, hv, Bool.false_eq_true, if_false,
            List.drop_succ_cons]
          exact ih rest (by simpa using hlen) (fun s hs => hfail s (List.mem_cons_of_mem i hs))

/-- C5 amended: values resolved from arguments, the accumulated scope or a
preset are stored as the strings they came from, and a STRING prompt
stores its input string; but interactive type validation of BOOLEAN and
INTEGER parameters stores the CONVERTED Python bool/int in `value`, so
the all-values-are-strings invariant holds only for the STRING flows. -/
theorem C5_value_storage (s : String) :
    (validate_and_convert_parameter_value s .STRING).2.1 = some (.str s) ∧
    ((validate_and_convert_parameter_value s .BOOLEAN).1 = true →
      (validate_and_convert_parameter_value s .BOOLEAN).2.1 =
        some (.bool (pyLower s == "true"))) ∧
    ((validate_and_convert_parameter_value s .INTEGER).1 = true →
      (validate_and_convert_parameter_value s .INTEGER).2.1 =
        some (.int (pyStrToNat s))) ∧
    (process_parameters [pC4] [] [] false false 0 [s]).1.parameters.map (fun q => q.value) =
      [some (.str (effectiveInput s none))] := by
  refine ⟨rfl, fun _ => rfl, ?_, ?_⟩
  · intro h
    simp only [validate_and_convert_parameter_value] at h ⊢
    cases hd : isdigit s with
    | true => simp [hd]
    | false => rw [hd] at h; simp at h
  · have hcopy := replace_placeholders_no_values
      { pC4 with action_index := some (0 : Int) } rfl rfl rfl rfl
    simp only [process_parameters, process_parameters_loop, pC4, pyTruthyInt,
      List.nil_append]
    simp only [pC4] at hcopy
    simp [hcopy, check_for_provided_parameters, handle_user_input,
      validate_and_convert_parameter_value]

/-- C5 amended witness: the BOOLEAN validation of "true" succeeds and
produces the Python bool. -/
theorem C5_value_storage_witness :
    (validate_and_convert_parameter_value "true" .BOOLEAN).2.1 = some (.bool true) := by
  have h := (C5_value_storage "true").2.1 (by decide)
  simpa using h

/-- C8: the interactive prompt loop makes at most 20 attempts (it consumes at
most 20 inputs); when every attempt fails type validation it raises the
unrecoverable error instead of prompting again, and the enclosing
`process_parameters` then returns a failed Result. -/
theorem C8_prompt_retry_bound (ty : OMParameterType) (d : Option String) (inputs : List String)
    (hlen : 20 ≤ inputs.length)
    (hfail : ∀ s ∈ inputs,
      (validate_and_convert_parameter_value (effectiveInput s d) ty).1 = false) :
    inputs.length ≤ ((handle_user_input ty d inputs 20).2).length + 20 ∧
    handle_user_input ty d inputs 20 = (.error .recursionError, inputs.drop 20) ∧
    (process_parameters [pC8 ty d] [] [] false false 0 inputs).1 =
      { success := false,
        text := some ("An error occurred while processing the parameters: " ++
          "Infinite loop detected while processing the parameters") } := by
  have h2 := handle_user_input_all_invalid ty d 20 inputs hlen hfail
  refine ⟨handle_user_input_bound ty d 20 inputs, h2, ?_⟩
  have hcopy := replace_placeholders_no_values
    { pC8 ty d with action_index := some (0 : Int) } rfl rfl rfl rfl
  simp only [process_parameters, process_parameters_loop, pC8, pyTruthyInt,
    List.nil_append]
  simp only [pC8] at hcopy
  simp [hcopy, check_for_provided_parameters, h2]

/-- C8 witness: twenty non-integer inputs for an INTEGER parameter produce a
failed parameter-processing Result. -/
theorem C8_witness :
    (process_parameters [pC8 .INTEGER none] [] [] false false 0
        (List.replicate 20 "x")).1.success = false := by
  have h := C8_prompt_retry_bound .INTEGER none (List.replicate 20 "x") (by decide) (by decide)
  rw [h.2.2]

/-- C7 counterexample: a FUNCTION_CALL action naming a function absent from
the registry terminates the run immediately (no action is dispatched, the
subsequent action never executes, no command is generated), but the
returned Result is the unchanged previous result object, whose `success`
is TRUE — not false as the claim states. -/
theorem C7_counterexample :
    process_operation envC7 opC7 [] false ["", ""] 5 = .done sC7final none ∧
    sC7final.result_object.success = true ∧
    sC7final.trace = [] := by
  refine ⟨rfl, rfl, rfl⟩

/-- C7 amended: the unknown-function run halts at the failing action with
nothing dispatched (so no subsequent action executes) and no generated
command; the failure is signalled by the missing command, while the
returned Result is the previous result object unchanged (here the initial
success result). -/
theorem C7_unknown_function_halts :
    process_operation envC7 opC7 [] false ["", ""] 5 = .done sC7final none ∧
    sC7final.trace = [] ∧
    sC7final.loop_state.action_index = 0 ∧
    sC7final.result_object = R0 := by
  refine ⟨rfl, rfl, rfl, rfl⟩

theorem iterA (ins t hy : List String) (hist : List OMParameter) (r : ResultObject)
    (hr : r.repeat_loop = none) :
    runIter envC1 [] false (mkC1 1 [some 1] ins t hy hist r) actA =
      .next (mkC1 2 [some 1] ins (t ++ ["A"]) (if "A" ∈ hy then hy else hy ++ ["A"])
        (merge hist extraC1) RA) := by
  have h2 : ∀ r1 t1, process_action envC1 actA extraC1 r1 1 extraC1 [] t1 ins =
      .ok (RA, "", extraC1, [], t1 ++ ["A"], ins) := fun _ _ => rfl
  simp only [runIter, mkC1, hr, h2]
  rfl

theorem iterLE_y (ins t hy : List String) (hist : List OMParameter) :
    runIter envC1 [] false (mkC1 2 [some 1] ("y" :: ins) t hy hist RA) actLE =
      .next (mkC1 0 [some 1] ins t hy hist RA) := rfl

theorem iterLE_n (ins t hy : List String) (hist : List OMParameter) :
    runIter envC1 [] false (mkC1 2 [some 1] ("n" :: ins) t hy hist RA) actLE =
      .next (mkC1 3 [] ins t hy hist RA) := rfl

theorem iterLS_again (ins t hy : List String) (hist : List OMParameter) :
    runIter envC1 [] false (mkC1 0 [some 1] ins t hy hist RA) actLS =
      .next (mkC1 1 [some 1] ins t hy hist RA) := rfl

theorem iterLS_first (ins : List String) :
    runIter envC1 [] false
      { operation_id := "loop-op", actions := actsC1, extra_parameters := extraC1,
        result_object := R0, inputs := ins } actLS =
      .next (mkC1 1 [some 1] ins [] [] [] R0) := rfl

theorem runOps_next {env : OpEnv} {args : List OMParameter} {sl : Bool} {fuel : Nat}
    {s s1 : OpState} {a : OMAction}
    (hlt : s.loop_state.action_index < s.actions.length)
    (ha : s.actions.get ⟨s.loop_state.action_index, hlt⟩ = a)
    (hit : runIter env args sl s a = .next s1) :
    runOps env args sl (fuel + 1) s = runOps env args sl fuel s1 := by
  simp only [runOps]
  rw [dif_pos hlt, ha, hit]

theorem runOps_finishC1 (fuel : Nat) (ins t hy : List String) (hist : List OMParameter) :
    runOps envC1 [] false (fuel + 1) (mkC1 3 [] ("" :: ins) t hy hist RA) =
      .done (mkC1 3 [] ins t hy hist RA)
        (some (generate_command envC1 "loop-op" hist)) := by
  simp only [runOps]
  rw [dif_neg (by simp [mkC1, actsC1])]
  rfl

theorem runC1_loop (j : Nat) :
    ∀ (t hy : List String) (hist : List OMParameter) (r : ResultObject),
    r.repeat_loop = none →
    runOps envC1 [] false (3 * j + 3)
        (mkC1 1 [some 1] (List.replicate j "y" ++ ["n", ""]) t hy hist r) =
      .done (mkC1 3 [] [] (t ++ List.replicate (j + 1) "A")
              (if "A" ∈ hy then hy else hy ++ ["A"]) (merge hist extraC1) RA)
        (some (generate_command envC1 "loop-op" (merge hist extraC1))) := by
  induction j with
  | zero =>
      intro t hy hist r hr
      rw [show List.replicate 0 "y" ++ ["n", ""] = "n" :: [""] from rfl]
      rw [show 3 * 0 + 3 = 1 + 1 + 1 from rfl]
      rw [runOps_next (by simp [mkC1, actsC1]) rfl (iterA ("n" :: [""]) t hy hist r hr)]
      rw [runOps_next (by simp [mkC1, actsC1]) rfl (iterLE_n [""] (t ++ ["A"])
            (if "A" ∈ hy then hy else hy ++ ["A"]) (merge hist extraC1))]
      rw [runOps_finishC1 0 [] (t ++ ["A"])
            (if "A" ∈ hy then hy else hy ++ ["A"]) (merge hist extraC1)]
      rfl
  | succ k ih =>
      intro t hy hist r hr
      rw [show List.replicate (k + 1) "y" ++ ["n", ""] =
            "y" :: (List.replicate k "y" ++ ["n", ""]) from by
        simp [List.replicate_succ]]
      rw [show 3 * (k + 1) + 3 = 3 * k + 3 + 1 + 1 + 1 from by ring]
      rw [runOps_next (by simp [mkC1, actsC1]) rfl
            (iterA ("y" :: (List.replicate k "y" ++ ["n", ""])) t hy hist r hr)]
      rw [runOps_next (by simp [mkC1, actsC1]) rfl
            (iterLE_y (List.replicate k "y" ++ ["n", ""]) (t ++ ["A"])
              (if "A" ∈ hy then hy else hy ++ ["A"]) (merge hist extraC1))]
      rw [runOps_next (by simp [mkC1, actsC1]) rfl
            (iterLS_again (List.replicate k "y" ++ ["n", ""]) (t ++ ["A"])
              (if "A" ∈ hy then hy else hy ++ ["A"]) (merge hist extraC1))]
      rw [ih (t ++ ["A"]) (if "A" ∈ hy then hy else hy ++ ["A"]) (merge hist extraC1) RA rfl]
      rw [merge_merge_self extraC1 hist]
      have hins : (if "A" ∈ (if "A" ∈ hy then hy else hy ++ ["A"]) then
          (if "A" ∈ hy then hy else hy ++ ["A"])
          else (if "A" ∈ hy then hy else hy ++ ["A"]) ++ ["A"]) =
          (if "A" ∈ hy then hy else hy ++ ["A"]) := by
        by_cases h : "A" ∈ hy
        · simp [h]
        · simp [h]
      rw [hins]
      have htr : (t ++ ["A"]) ++ List.replicate (k + 1) "A" =
          t ++ List.replicate (k + 1 + 1) "A" := by
        simp [List.replicate_succ]
      rw [htr]

/-- C1: for the action list LOOP_START(1) -> A -> LOOP_END(1), with
`skip_looping` false, answering the LOOP_END repeat prompt with y exactly
k times and then n makes the registry function A execute exactly k+1
times, after which the cursor stands at index 3, past LOOP_END(1), and
the run completes. -/
theorem C1_loop_replay (k : Nat) :
    ∃ (s : OpState) (command : Option String),
      process_operation envC1 opC1 [] false (List.replicate k "y" ++ ["n", ""]) (3 * k + 4) =
        .done s command ∧
      s.trace.count "A" = k + 1 ∧
      s.loop_state.action_index = 3 := by
  refine ⟨mkC1 3 [] [] ([] ++ List.replicate (k + 1) "A")
      (if "A" ∈ ([] : List String) then [] else [] ++ ["A"]) (merge [] extraC1) RA,
    some (generate_command envC1 "loop-op" (merge [] extraC1)), ?_, ?_, ?_⟩
  · have hrun : process_operation envC1 opC1 [] false
        (List.replicate k "y" ++ ["n", ""]) (3 * k + 4) =
        runOps envC1 [] false (3 * k + 4)
          { operation_id := "loop-op", actions := actsC1, extra_parameters := extraC1,
            result_object := R0, inputs := List.replicate k "y" ++ ["n", ""] } := rfl
    rw [hrun, show 3 * k + 4 = 3 * k + 3 + 1 from by ring]
    rw [runOps_next (by simp [actsC1]) rfl (iterLS_first (List.replicate k "y" ++ ["n", ""]))]
    rw [runC1_loop k [] [] [] R0 rfl]
  · simp [mkC1]
  · rfl

end OmCli